import Mathlib

/-!
Verification of the Audio-File-Tools-Bot repository (src/src/bot.js and the
second, earlier copy src/unnamed/part_000) against its specification.

The JavaScript source is shallowly embedded: strings are Lean `String`s
(lists of characters), the regular-expression search of `parseTimecodes` is
implemented as an explicit leftmost-match scanner, JS `undefined`/absent
values are `Option`, thrown errors are `Except`, and the effectful handler
pipeline is a pure function from an environment of external-call outcomes
to the list of performed actions plus the request outcome.
-/

/-- JS word character for the `\b` assertion: `[A-Za-z0-9_]`. -/
def isWordChar (c : Char) : Bool :=
  c.isAlpha || c.isDigit || c = '_'

/-- JS whitespace for the `\s` class: tab, line terminators, space and the
Unicode space characters matched by JavaScript regular expressions. -/
def isJsSpace (c : Char) : Bool :=
  c = ' ' || c = '\t' || c = '\n' || c.val = 11 || c.val = 12 || c = '\r' ||
  c.val = 0xa0 || c.val = 0x1680 || (0x2000 ≤ c.val && c.val ≤ 0x200a) ||
  c.val = 0x2028 || c.val = 0x2029 || c.val = 0x202f || c.val = 0x205f ||
  c.val = 0x3000 || c.val = 0xfeff

/-- The `\b` assertion immediately before a digit: it holds when the
preceding character (if any) is not a word character. -/
def wordBoundaryBefore (prev : Option Char) : Bool :=
  match prev with
  | none => true
  | some c => !(isWordChar c)

/-- The `\b` assertion immediately after a digit: it holds at the end of
the input or when the next character is not a word character. -/
def wordBoundaryAfter (rest : List Char) : Bool :=
  match rest with
  | [] => true
  | c :: _ => !(isWordChar c)

/-- Attempt of the regular expression `\b(\d{1,4})\s*:\s*(\d{1,4})\b` of
`parseTimecodes` (src/src/bot.js line 101) at one position of the text.
`prev` is the character just before the position (none at the start).
Backtracking is not needed: the greedy `\d{1,4}` can only succeed on the
whole maximal digit run (a shorter take leaves a digit where `:` or `\b`
is required), and the greedy `\s*` can only take the whole space run
(`:` and digits are not spaces). Returns the two captured groups. -/
def matchTimecodeAt (prev : Option Char) (s : List Char) :
    Option (List Char × List Char) :=
  let g1 := s.takeWhile Char.isDigit
  if wordBoundaryBefore prev ∧ 1 ≤ g1.length ∧ g1.length ≤ 4 then
    let r1 := (s.drop g1.length).dropWhile isJsSpace
    match r1 with
    | ':' :: r2 =>
      let r3 := r2.dropWhile isJsSpace
      let g2 := r3.takeWhile Char.isDigit
      if 1 ≤ g2.length ∧ g2.length ≤ 4 ∧
          wordBoundaryAfter (r3.drop g2.length) then
        some (g1, g2)
      else none
    | _ => none
  else none

/-- Leftmost-first search of the regular expression over the text, as
performed by `String.prototype.match` without the global flag. -/
def findTimecode : Option Char → List Char → Option (List Char × List Char)
  | _, [] => none
  | prev, c :: rest =>
    match matchTimecodeAt prev (c :: rest) with
    | some g => some g
    | none => findTimecode (some c) rest

/-- Decimal value of a digit string, the value `Number` yields on the
captured `\d{1,4}` groups. -/
def digitsToNat (s : List Char) : Nat :=
  s.foldl (fun acc c => 10 * acc + (c.toNat - '0'.toNat)) 0

/-- Model of the JS `Number` conversion on the strings this program feeds
it: the captures of the regular expression, which are non-empty strings of
1-4 decimal digits. `Number` of a non-empty digit string is its decimal
value and `Number` of the empty string is 0; every other string is
conservatively modelled as NaN (`none`), which only the unreachable-NaN
analysis touches. -/
def jsNumber (s : List Char) : Option Int :=
  if s.isEmpty then some 0
  else if s.all Char.isDigit then some (digitsToNat s)
  else none

/-- The `{ start, end }` record returned by `parseTimecodes`. -/
structure TrimRange where
  start : Int
  «end» : Int
deriving DecidableEq, Repr

/-- The two ways `parseTimecodes` throws a `TimecodeParseError`. -/
inductive TimecodeParseError where
  | nan
  | order
deriving DecidableEq, Repr

/-- The human-readable message carried by each `TimecodeParseError`. -/
def TimecodeParseError.message : TimecodeParseError → String
  | .nan => "Не удалось преобразовать таймкоды в числа."
  | .order => "Конечное время должно быть больше начального."

/-- Post-match logic of `parseTimecodes` (src/src/bot.js lines 103-118):
what the function does with the result of the regular-expression search. -/
def firstPatternResult (mr : Option (List Char × List Char)) :
    Except TimecodeParseError (Option TrimRange) :=
  match mr with
  | none => .ok none
  | some (g1, g2) =>
    match jsNumber g1, jsNumber g2 with
    | some start, some «end» =>
      if start < 0 ∨ «end» ≤ start then .error .order
      else .ok (some ⟨start, «end»⟩)
    | _, _ => .error .nan

/-- parseTimecodes (src/src/bot.js lines 96-119). The argument is
`Option String`: `none` models an absent (undefined/null) text, and the
`if (!rawText)` guard also treats the empty string as absent. -/
def parseTimecodes (rawText : Option String) :
    Except TimecodeParseError (Option TrimRange) :=
  match rawText with
  | none => .ok none
  | some s =>
    if s.isEmpty then .ok none
    else firstPatternResult (findTimecode none s.data)

/-- The trim argument as `convertToVoice` inspects it: each field is used
only when `typeof` says it is a number, so each field is an `Option`. -/
structure JsTrimRange where
  start : Option Int
  «end» : Option Int
deriving DecidableEq, Repr

/-- The fluent-ffmpeg invocation assembled by `convertToVoice`: input path,
optional `setStartTime`/`setDuration` trim parameters, the output options,
the container format and the output path handed to `save`. -/
structure FfmpegCommand where
  input : String
  startTime : Option Int
  duration : Option Int
  outputOptions : List String
  format : String
  output : String
deriving DecidableEq, Repr

/-- convertToVoice (src/src/bot.js lines 49-94). Computes the optional
start time and duration from the trim range, rejects a non-positive
calculated duration before any ffmpeg command is built, and otherwise
returns the assembled transcoder invocation. -/
def convertToVoice (inputPath outputPath : String)
    (trimRange : Option JsTrimRange) : Except String FfmpegCommand :=
  let startTime : Option Int := trimRange.bind (·.start)
  let durationResult : Except String (Option Int) :=
    match trimRange with
    | none => .ok none
    | some r =>
      match r.«end» with
      | none => .ok none
      | some e =>
        let base : Int := r.start.getD 0
        let calculatedDuration := e - base
        if calculatedDuration ≤ 0 then
          .error "Неверный интервал для обрезки аудио."
        else .ok (some calculatedDuration)
  match durationResult with
  | .error msg => .error msg
  | .ok duration =>
    .ok { input := inputPath
          startTime := startTime
          duration := duration
          outputOptions := ["-acodec libopus", "-b:a 48k", "-ac 1",
                            "-ar 48000", "-vn"]
          format := "ogg"
          output := outputPath }

/-- convertToVoice of the second copy of the program
(src/unnamed/part_000 lines 42-57): no trim parameter, the ffmpeg command
is built directly with neither `setStartTime` nor `setDuration`. -/
def legacyConvertToVoice (inputPath outputPath : String) : FfmpegCommand :=
  { input := inputPath
    startTime := none
    duration := none
    outputOptions := ["-acodec libopus", "-b:a 48k", "-ac 1",
                      "-ar 48000", "-vn"]
    format := "ogg"
    output := outputPath }

/-- The fields of a Telegram document attachment that the program reads. -/
structure Document where
  mime_type : Option String
  file_name : Option String
  file_id : String
  file_unique_id : String
deriving DecidableEq, Repr

/-- JS `String.prototype.startsWith` on the character lists. -/
def jsStartsWith (s pre : String) : Bool :=
  pre.data.isPrefixOf s.data

/-- JS `String.prototype.endsWith` on the character lists. -/
def jsEndsWith (s suf : String) : Bool :=
  suf.data.reverse.isPrefixOf s.data.reverse

/-- ASCII lowercasing, the effect of the `i` regex flag on the ASCII-only
extension alternatives. -/
def jsToLower (s : String) : String :=
  ⟨s.data.map Char.toLower⟩

/-- The recognized audio filename extensions of the regular expression
`\.(mp3|wav|m4a|flac|aac|ogg|oga)$/i` in `isAudioDocument`. -/
def audioExtensions : List String :=
  [".mp3", ".wav", ".m4a", ".flac", ".aac", ".ogg", ".oga"]

/-- The case-insensitive extension test of `isAudioDocument`: the `$`
anchor (no multiline flag) makes the regular expression a
suffix test on the lowercased name. -/
def hasAudioExtension (name : String) : Bool :=
  audioExtensions.any (fun e => jsEndsWith (jsToLower name) e)

/-- isAudioDocument (src/src/bot.js lines 143-153). A missing document is
not audio; a truthy MIME type starting with `audio/` is; otherwise a
truthy filename with a recognized audio extension is. -/
def isAudioDocument (document : Option Document) : Bool :=
  match document with
  | none => false
  | some d =>
    (match d.mime_type with
     | some m => !m.isEmpty && jsStartsWith m "audio/"
     | none => false) ||
    (match d.file_name with
     | some f => !f.isEmpty && hasAudioExtension f
     | none => false)

/-- JS `a || b` on an optional string: the fallback is used when the
string is absent or empty (falsy). -/
def jsOrStr (a : Option String) (b : String) : String :=
  match a with
  | some s => if s.isEmpty then b else s
  | none => b

/-- Suffix of a list starting at its last occurrence of a dot. -/
def lastDotSuffix : List Char → Option (List Char)
  | [] => none
  | c :: cs =>
    match lastDotSuffix cs with
    | some s => some s
    | none => if c = '.' then some (c :: cs) else none

/-- Model of Node `path.extname`: the part of the basename from its last
dot onward, where a dot that starts the basename does not count and the
special names `.` and `..` have no extension. -/
def extname (p : String) : String :=
  let base : List Char := (p.data.reverse.takeWhile (fun c => c ≠ '/')).reverse
  if base = ['.'] ∨ base = ['.', '.'] then ""
  else
    match base with
    | [] => ""
    | _ :: rest =>
      match lastDotSuffix rest with
      | some s => ⟨s⟩
      | none => ""

/-- buildTempPath (src/src/bot.js lines 39-42): tmp root, timestamp, a
random identifier and the normalized extension suffix. The timestamp and
identifier are inputs here since `Date.now` and `randomUUID` are
environment effects. -/
def buildTempPath (now : Nat) (uuid : String) (ext : String) : String :=
  let suffix := if jsStartsWith ext "." then ext
    else if ext.isEmpty then "" else "." ++ ext
  "/tmp/audio-tools-bot/" ++ toString now ++ "-" ++ uuid ++ suffix

/-- The format-hint reply sent when timecode parsing fails. -/
def timecodeHintMsg : String :=
  "Не удалось понять таймкоды. Используй формат \"0:40\", где числа — секунды начала и конца."

/-- The generic apology sent when `processAudio` fails. -/
def processFailMsg : String :=
  "Не получилось обработать файл. Попробуй ещё раз позже."

/-- The externally visible actions a handler can perform, in order. -/
inductive BotAction where
  | mkTmpDir
  | getFileLink (fileId : String)
  | download (url : String) (dest : String)
  | sendChatAction (a : String)
  | transcode (cmd : FfmpegCommand)
  | replyWithVoice (path : String)
  | unlink (p : String)
  | reply (msg : String)
  | callNext
deriving DecidableEq, Repr

/-- Outcomes of the external calls of one request, plus the `Date.now` and
`randomUUID` values the two `buildTempPath` calls observe. Quantifying over
this environment quantifies over every combination of external success and
failure, hence over every exit path of the pipeline. -/
structure Env where
  linkOk : Bool
  fileUrl : String
  downloadOk : Bool
  chatActionOk : Bool
  transcodeOk : Bool
  replyOk : Bool
  unlinkInputOk : Bool
  unlinkOutputOk : Bool
  now1 : Nat
  uuid1 : String
  now2 : Nat
  uuid2 : String
deriving DecidableEq, Repr

/-- The input extension chosen by `processAudio`:
`path.extname(filenameHint || '') || '.tmp'`. -/
def inputExtFor (filenameHint : Option String) : String :=
  let e := extname (jsOrStr filenameHint "")
  if e.isEmpty then ".tmp" else e

/-- The input temp path of a request. -/
def inputPathFor (env : Env) (filenameHint : Option String) : String :=
  buildTempPath env.now1 env.uuid1 (inputExtFor filenameHint)

/-- The output temp path of a request. -/
def outputPathFor (env : Env) : String :=
  buildTempPath env.now2 env.uuid2 ".ogg"

/-- Raw result of one `fsPromises.unlink` call. -/
def unlinkResult (ok : Bool) : Except Unit Unit :=
  if ok then .ok () else .error ()

/-- The `.catch(() => {})` attached to each unlink: any failure is
swallowed into success. -/
def swallowUnlinkFailure : Except Unit Unit → Except Unit Unit
  | .ok () => .ok ()
  | .error () => .ok ()

/-- processAudio (src/src/bot.js lines 121-141). Returns the list of
performed external actions and the outcome (`.error` models a thrown
exception reaching the caller). The try block stops at the first failing
step; the finally block then attempts both unlinks, whose swallowed
results never alter the outcome because `Promise.allSettled` of resolved
promises resolves. -/
def processAudio (env : Env) (fileId : String) (filenameHint : Option String)
    (trimRange : Option TrimRange) : List BotAction × Except Unit Unit :=
  let inputPath := inputPathFor env filenameHint
  let outputPath := outputPathFor env
  let tryBlock : List BotAction × Except Unit Unit :=
    if !env.linkOk then ([.getFileLink fileId], .error ())
    else if !env.downloadOk then
      ([.getFileLink fileId, .download env.fileUrl inputPath], .error ())
    else if !env.chatActionOk then
      ([.getFileLink fileId, .download env.fileUrl inputPath,
        .sendChatAction "record_voice"], .error ())
    else
      match convertToVoice inputPath outputPath
          (trimRange.map (fun r => ⟨some r.start, some r.«end»⟩)) with
      | .error _ =>
        ([.getFileLink fileId, .download env.fileUrl inputPath,
          .sendChatAction "record_voice"], .error ())
      | .ok cmd =>
        if !env.transcodeOk then
          ([.getFileLink fileId, .download env.fileUrl inputPath,
            .sendChatAction "record_voice", .transcode cmd], .error ())
        else if !env.replyOk then
          ([.getFileLink fileId, .download env.fileUrl inputPath,
            .sendChatAction "record_voice", .transcode cmd,
            .replyWithVoice outputPath], .error ())
        else
          ([.getFileLink fileId, .download env.fileUrl inputPath,
            .sendChatAction "record_voice", .transcode cmd,
            .replyWithVoice outputPath], .ok ())
  let settled := [swallowUnlinkFailure (unlinkResult env.unlinkInputOk),
                  swallowUnlinkFailure (unlinkResult env.unlinkOutputOk)]
  let _ := settled
  (BotAction.mkTmpDir ::
    (tryBlock.1 ++ [BotAction.unlink inputPath, BotAction.unlink outputPath]),
   tryBlock.2)

/-- The fields of a Telegram audio attachment that the program reads. -/
structure AudioInfo where
  file_id : String
  file_name : Option String
  file_unique_id : String
deriving DecidableEq, Repr

/-- An inbound message as the handlers see it. -/
structure Message where
  caption : Option String
  text : Option String
  audio : Option AudioInfo
  document : Option Document
deriving DecidableEq, Repr

/-- The text the handlers parse: `message.caption || message.text || ''`. -/
def rawTextOf (m : Message) : String :=
  jsOrStr m.caption (jsOrStr m.text "")

/-- extractTimecodesFromMessage (src/src/bot.js lines 155-165).
`parseTimecodes` only throws `TimecodeParseError`, which the wrapper
re-throws unchanged, so the wrapping branch for unexpected errors is never
taken and the wrapper is the parse itself. -/
def extractTimecodesFromMessage (m : Message) :
    Except TimecodeParseError (Option TrimRange) :=
  parseTimecodes (some (rawTextOf m))

/-- The `bot.on('audio')` handler (src/src/bot.js lines 169-192): parse
timecodes first, replying with the format hint and stopping on a
`TimecodeParseError`; otherwise run `processAudio` and send the generic
apology if it threw. -/
def handleAudio (env : Env) (m : Message) : List BotAction :=
  match m.audio with
  | none => []
  | some audio =>
    match extractTimecodesFromMessage m with
    | .error _ => [BotAction.reply timecodeHintMsg]
    | .ok trimRange =>
      let r := processAudio env audio.file_id
        (some (jsOrStr audio.file_name audio.file_unique_id)) trimRange
      match r.2 with
      | .ok _ => r.1
      | .error _ => r.1 ++ [BotAction.reply processFailMsg]

/-- The `bot.on('document')` handler (src/src/bot.js lines 194-216): a
non-audio document defers to the next handler; an audio document follows
the same parse-then-process sequence as the audio handler. -/
def handleDocument (env : Env) (m : Message) (hasNext : Bool) : List BotAction :=
  if !isAudioDocument m.document then
    if hasNext then [BotAction.callNext] else []
  else
    match m.document with
    | none => []
    | some doc =>
      match extractTimecodesFromMessage m with
      | .error _ => [BotAction.reply timecodeHintMsg]
      | .ok trimRange =>
        let r := processAudio env doc.file_id
          (some (jsOrStr doc.file_name doc.file_unique_id)) trimRange
        match r.2 with
        | .ok _ => r.1
        | .error _ => r.1 ++ [BotAction.reply processFailMsg]

/-- A non-audio document: `.pdf` extension and a non-audio MIME type. -/
def pdfDocument : Document :=
  ⟨some "application/pdf", some "paper.pdf", "doc-id", "doc-uid"⟩

/-- A concrete environment in which every external call succeeds. -/
def sampleEnv : Env :=
  ⟨true, "https://host.invalid/file", true, true, true, true, true, true,
   1, "uuid-in", 2, "uuid-out"⟩

/-- A concrete message whose caption carries reversed timecodes, with both
an audio and an audio-typed document attachment. -/
def sampleBadMsg : Message :=
  ⟨some "40:10", none, some ⟨"audio-file-id", none, "audio-unique"⟩,
   some ⟨some "audio/mpeg", none, "doc-file-id", "doc-unique"⟩⟩

/-- Every element kept by `takeWhile` satisfies the predicate. -/
theorem all_takeWhile_self {α : Type} (p : α → Bool) (l : List α) :
    (l.takeWhile p).all p = true := by
  rw [List.all_eq_true]
  intro x hx
  exact List.mem_takeWhile_imp hx

/-- A successful single-position match captures two non-empty runs of at
most four decimal digits. -/
theorem matchTimecodeAt_groups {prev : Option Char} {s g1 g2 : List Char}
    (h : matchTimecodeAt prev s = some (g1, g2)) :
    g1 ≠ [] ∧ g1.length ≤ 4 ∧ g1.all Char.isDigit = true ∧
    g2 ≠ [] ∧ g2.length ≤ 4 ∧ g2.all Char.isDigit = true := by
  simp only [matchTimecodeAt] at h
  split at h
  · split at h
    · split at h
      · simp only [Option.some.injEq, Prod.mk.injEq] at h
        obtain ⟨rfl, rfl⟩ := h
        rename_i hc1 r1 r2 heq hc2
        exact ⟨List.ne_nil_of_length_pos hc1.2.1, hc1.2.2,
          all_takeWhile_self _ _,
          List.ne_nil_of_length_pos hc2.1, hc2.2.1,
          all_takeWhile_self _ _⟩
      · exact absurd h (by simp)
    · exact absurd h (by simp)
  · exact absurd h (by simp)

/-- The captures of the leftmost match are non-empty runs of at most four
decimal digits. -/
theorem findTimecode_groups {s : List Char} :
    ∀ {prev : Option Char} {g1 g2 : List Char},
    findTimecode prev s = some (g1, g2) →
    g1 ≠ [] ∧ g1.length ≤ 4 ∧ g1.all Char.isDigit = true ∧
    g2 ≠ [] ∧ g2.length ≤ 4 ∧ g2.all Char.isDigit = true := by
  induction s with
  | nil =>
    intro prev g1 g2 h
    exact absurd h (by simp [findTimecode])
  | cons c rest ih =>
    intro prev g1 g2 h
    simp only [findTimecode] at h
    cases hm : matchTimecodeAt prev (c :: rest) with
    | some g =>
      rw [hm] at h
      obtain ⟨a, b⟩ := g
      simp only [Option.some.injEq, Prod.mk.injEq] at h
      obtain ⟨rfl, rfl⟩ := h
      exact matchTimecodeAt_groups hm
    | none =>
      rw [hm] at h
      exact ih h

/-- On a non-empty digit string the modelled `Number` is its decimal
value. -/
theorem jsNumber_digits {g : List Char} (h1 : g ≠ [])
    (h2 : g.all Char.isDigit = true) :
    jsNumber g = some ((digitsToNat g : Nat) : Int) := by
  cases g with
  | nil => exact absurd rfl h1
  | cons c t => simp [jsNumber, h2]

/-- `parseTimecodes` on a present text is the post-match logic applied to
the leftmost regular-expression match; the empty-text early return agrees
with the search finding nothing in the empty text. -/
theorem parseTimecodes_some_eq (s : String) :
    parseTimecodes (some s) = firstPatternResult (findTimecode none s.data) := by
  by_cases h : s.isEmpty
  · have hs : s = "" := (String.isEmpty_iff s).mp h
    subst hs
    rfl
  · simp [parseTimecodes, h]

/-- On a matched pair of digit captures, the post-match logic reduces to
the ordering test on their decimal values. -/
theorem firstPatternResult_digits {g1 g2 : List Char}
    (h1 : g1 ≠ []) (h1d : g1.all Char.isDigit = true)
    (h2 : g2 ≠ []) (h2d : g2.all Char.isDigit = true) :
    firstPatternResult (some (g1, g2)) =
      if ((digitsToNat g1 : Nat) : Int) < 0 ∨
          ((digitsToNat g2 : Nat) : Int) ≤ ((digitsToNat g1 : Nat) : Int)
      then .error .order
      else .ok (some ⟨((digitsToNat g1 : Nat) : Int),
                      ((digitsToNat g2 : Nat) : Int)⟩) := by
  simp only [firstPatternResult, jsNumber_digits h1 h1d, jsNumber_digits h2 h2d]

/-- Every successfully parsed trim range is ordered: the start is
non-negative and strictly below the end. -/
theorem parseTimecodes_ok_ordered {u : Option String} {r : TrimRange}
    (h : parseTimecodes u = .ok (some r)) :
    0 ≤ r.start ∧ r.start < r.«end» := by
  cases u with
  | none => simp [parseTimecodes] at h
  | some s =>
    rw [parseTimecodes_some_eq] at h
    cases hf : findTimecode none s.data with
    | none =>
      rw [hf] at h
      simp [firstPatternResult] at h
    | some g =>
      obtain ⟨g1, g2⟩ := g
      obtain ⟨hg1, _, hg1d, hg2, _, hg2d⟩ := findTimecode_groups hf
      rw [hf, firstPatternResult_digits hg1 hg1d hg2 hg2d] at h
      split at h
      · simp at h
      · rename_i hcond
        simp only [Except.ok.injEq, Option.some.injEq] at h
        subst h
        push_neg at hcond
        exact ⟨hcond.1, hcond.2⟩

/-- An order error can only arise from a matched pattern whose second
capture does not exceed the first. -/
theorem parseTimecodes_error_order {u : Option String}
    (h : parseTimecodes u = .error .order) :
    ∃ s d1 d2, u = some s ∧ findTimecode none s.data = some (d1, d2) ∧
      ((digitsToNat d2 : Nat) : Int) ≤ ((digitsToNat d1 : Nat) : Int) := by
  cases u with
  | none => simp [parseTimecodes] at h
  | some s =>
    rw [parseTimecodes_some_eq] at h
    cases hf : findTimecode none s.data with
    | none =>
      rw [hf] at h
      simp [firstPatternResult] at h
    | some g =>
      obtain ⟨g1, g2⟩ := g
      obtain ⟨hg1, _, hg1d, hg2, _, hg2d⟩ := findTimecode_groups hf
      rw [hf, firstPatternResult_digits hg1 hg1d hg2 hg2d] at h
      split at h
      · rename_i hcond
        exact ⟨s, g1, g2, rfl, hf, by omega⟩
      · simp at h

/-- The NaN branch of `parseTimecodes` is unreachable: the captures are
always digit strings, which `Number` converts without NaN. -/
theorem parseTimecodes_never_nan (u : Option String) :
    parseTimecodes u ≠ .error .nan := by
  cases u with
  | none => simp [parseTimecodes]
  | some s =>
    rw [parseTimecodes_some_eq]
    cases hf : findTimecode none s.data with
    | none => simp [firstPatternResult]
    | some g =>
      obtain ⟨g1, g2⟩ := g
      obtain ⟨hg1, _, hg1d, hg2, _, hg2d⟩ := findTimecode_groups hf
      rw [firstPatternResult_digits hg1 hg1d hg2 hg2d]
      split
      · simp
      · simp

/-- The truthiness guard on the MIME type is redundant: the empty string
does not start with `audio/`. -/
theorem mime_truthy_redundant (m : String) :
    (!m.isEmpty && jsStartsWith m "audio/") = jsStartsWith m "audio/" := by
  by_cases h : m.isEmpty
  · have hm : m = "" := (String.isEmpty_iff m).mp h
    subst hm
    rfl
  · simp [h]

/-- The truthiness guard on the filename is redundant: the empty string
has no audio extension. -/
theorem name_truthy_redundant (f : String) :
    (!f.isEmpty && hasAudioExtension f) = hasAudioExtension f := by
  by_cases h : f.isEmpty
  · have hf : f = "" := (String.isEmpty_iff f).mp h
    subst hf
    rfl
  · simp [h]

/-- C1: for every text in which the regular expression finds a qualifying
`start:end` pattern whose decimal values satisfy end > start (start ≥ 0
holds for every digit capture), `parseTimecodes` returns exactly the
record of the two parsed integers; on `"skip to 0:40 please"` it returns
`{start := 0, end := 40}`; and every returned `TrimRange` satisfies
0 ≤ start < end. -/
theorem c1_parse_valid_range (t : String) (g1 g2 : List Char)
    (h : findTimecode none t.data = some (g1, g2))
    (hlt : ((digitsToNat g1 : Nat) : Int) < ((digitsToNat g2 : Nat) : Int)) :
    parseTimecodes (some t) =
      .ok (some ⟨((digitsToNat g1 : Nat) : Int),
                 ((digitsToNat g2 : Nat) : Int)⟩) ∧
    (∀ u : Option String, ∀ r : TrimRange,
      parseTimecodes u = .ok (some r) → 0 ≤ r.start ∧ r.start < r.«end») ∧
    parseTimecodes (some "skip to 0:40 please") = .ok (some ⟨0, 40⟩) := by
  refine ⟨?_, fun u r hr => parseTimecodes_ok_ordered hr, rfl⟩
  obtain ⟨hg1, _, hg1d, hg2, _, hg2d⟩ := findTimecode_groups h
  rw [parseTimecodes_some_eq, h, firstPatternResult_digits hg1 hg1d hg2 hg2d,
    if_neg (by omega)]

/-- Witness for C1 at the concrete input of the specification. -/
theorem c1_witness :
    parseTimecodes (some "skip to 0:40 please") = .ok (some ⟨0, 40⟩) :=
  (c1_parse_valid_range "skip to 0:40 please" ['0'] ['4', '0'] rfl
    (by decide)).2.2

/-- C2: whenever the matched pattern has end ≤ start the parse fails with
the ordering `TimecodeParseError`, and that error arises only from a
matched pattern with end ≤ start. -/
theorem c2_parse_bad_order (t : String) (g1 g2 : List Char)
    (h : findTimecode none t.data = some (g1, g2))
    (hle : ((digitsToNat g2 : Nat) : Int) ≤ ((digitsToNat g1 : Nat) : Int)) :
    parseTimecodes (some t) = .error TimecodeParseError.order ∧
    (∀ u : Option String,
      parseTimecodes u = .error TimecodeParseError.order →
      ∃ s d1 d2, u = some s ∧ findTimecode none s.data = some (d1, d2) ∧
        ((digitsToNat d2 : Nat) : Int) ≤ ((digitsToNat d1 : Nat) : Int)) := by
  refine ⟨?_, fun u hu => parseTimecodes_error_order hu⟩
  obtain ⟨hg1, _, hg1d, hg2, _, hg2d⟩ := findTimecode_groups h
  rw [parseTimecodes_some_eq, h, firstPatternResult_digits hg1 hg1d hg2 hg2d,
    if_pos (by omega)]

/-- Witness for C2 at the two concrete inputs of the specification. -/
theorem c2_witness :
    parseTimecodes (some "40:10") = .error TimecodeParseError.order ∧
    parseTimecodes (some "5:5") = .error TimecodeParseError.order :=
  ⟨(c2_parse_bad_order "40:10" ['4', '0'] ['1', '0'] rfl (by decide)).1,
   (c2_parse_bad_order "5:5" ['5'] ['5'] rfl (by decide)).1⟩

/-- C3: on any absent text, and on any present text in which the regular
expression finds no qualifying pattern, `parseTimecodes` returns `null`
and raises no error. -/
theorem c3_parse_no_pattern (u : Option String)
    (h : ∀ s, u = some s → findTimecode none s.data = none) :
    parseTimecodes u = .ok none := by
  cases u with
  | none => rfl
  | some s =>
    rw [parseTimecodes_some_eq, h s rfl]
    rfl

/-- Witness for C3 on pattern-free text, the empty string and absent
text. -/
theorem c3_witness :
    parseTimecodes (some "just an audio file") = .ok none ∧
    parseTimecodes (some "") = .ok none ∧
    parseTimecodes none = .ok none :=
  ⟨c3_parse_no_pattern (some "just an audio file")
      (fun s hs => by cases hs; rfl),
   c3_parse_no_pattern (some "") (fun s hs => by cases hs; rfl),
   c3_parse_no_pattern none (fun s hs => by cases hs)⟩

/-- C4: whenever timecode parsing of the message text fails, both the
audio handler and the document handler (on an audio document) reply with
the format hint and perform nothing else: the whole trace is that single
reply, so no file-link resolution, download, transcoder invocation or
temp-file creation happens for the request. -/
theorem c4_format_error_aborts (env : Env) (m : Message)
    (e : TimecodeParseError)
    (hp : parseTimecodes (some (rawTextOf m)) = .error e) :
    (∀ a, m.audio = some a →
      handleAudio env m = [BotAction.reply timecodeHintMsg]) ∧
    (isAudioDocument m.document = true →
      ∀ hasNext, handleDocument env m hasNext =
        [BotAction.reply timecodeHintMsg]) := by
  constructor
  · intro a ha
    simp [handleAudio, extractTimecodesFromMessage, ha, hp]
  · intro hd hasNext
    cases hmd : m.document with
    | none => rw [hmd] at hd; simp [isAudioDocument] at hd
    | some doc =>
      rw [hmd] at hd
      simp [handleDocument, hmd, hd, extractTimecodesFromMessage, hp]

/-- Witness for C4: a concrete message with caption `"40:10"` makes both
handlers reply with the hint and stop. -/
theorem c4_witness :
    handleAudio sampleEnv sampleBadMsg = [BotAction.reply timecodeHintMsg] ∧
    handleDocument sampleEnv sampleBadMsg true =
      [BotAction.reply timecodeHintMsg] :=
  ⟨(c4_format_error_aborts sampleEnv sampleBadMsg .order rfl).1
      ⟨"audio-file-id", none, "audio-unique"⟩ rfl,
   (c4_format_error_aborts sampleEnv sampleBadMsg .order rfl).2 rfl true⟩

/-- C5: a document is classified as audio exactly when its MIME type
starts with `audio/` or its filename ends (case-insensitively) with a
recognized audio extension; an `audio/mpeg` document with no recognized
extension is audio; a `.pdf` document with a non-audio MIME type is not,
and the document handler defers to the next handler on it. -/
theorem c5_audio_document_iff (d : Document) :
    (isAudioDocument (some d) = true ↔
      (∃ m, d.mime_type = some m ∧ jsStartsWith m "audio/" = true) ∨
      (∃ f, d.file_name = some f ∧ hasAudioExtension f = true)) ∧
    isAudioDocument (some ⟨some "audio/mpeg", none, "f", "u"⟩) = true ∧
    isAudioDocument (some pdfDocument) = false ∧
    (∀ env c t a, handleDocument env ⟨c, t, a, some pdfDocument⟩ true =
      [BotAction.callNext]) := by
  refine ⟨?_, rfl, rfl, fun env c t a => rfl⟩
  obtain ⟨mt, fn, fi, fu⟩ := d
  simp only [isAudioDocument]
  cases mt with
  | none =>
    cases fn with
    | none => simp
    | some f => simp [name_truthy_redundant f]
  | some m =>
    cases fn with
    | none => simp [mime_truthy_redundant m]
    | some f => simp [mime_truthy_redundant m, name_truthy_redundant f]

/-- C6: the transcoder invocation built by `convertToVoice`, for every
shape of the trim argument: the output options always encode mono
(`-ac 1`), 48 kHz (`-ar 48000`), Opus (`-acodec libopus`) at 48 kbit/s
(`-b:a 48k`) with video disabled (`-vn`) in an `ogg` container; with a
full trim range the start time is `start` and the duration `end - start`,
and a non-positive duration is rejected with no command built. -/
theorem c6_transcoder_invocation (i o : String) (s e : Int) :
    convertToVoice i o none = .ok
      { input := i, startTime := none, duration := none,
        outputOptions := ["-acodec libopus", "-b:a 48k", "-ac 1",
                          "-ar 48000", "-vn"],
        format := "ogg", output := o } ∧
    convertToVoice i o (some ⟨some s, some e⟩) =
      (if e - s ≤ 0 then .error "Неверный интервал для обрезки аудио."
       else .ok
        { input := i, startTime := some s, duration := some (e - s),
          outputOptions := ["-acodec libopus", "-b:a 48k", "-ac 1",
                            "-ar 48000", "-vn"],
          format := "ogg", output := o }) ∧
    convertToVoice i o (some ⟨some s, none⟩) = .ok
      { input := i, startTime := some s, duration := none,
        outputOptions := ["-acodec libopus", "-b:a 48k", "-ac 1",
                          "-ar 48000", "-vn"],
        format := "ogg", output := o } ∧
    convertToVoice i o (some ⟨none, some e⟩) =
      (if e ≤ 0 then .error "Неверный интервал для обрезки аудио."
       else .ok
        { input := i, startTime := none, duration := some e,
          outputOptions := ["-acodec libopus", "-b:a 48k", "-ac 1",
                            "-ar 48000", "-vn"],
          format := "ogg", output := o }) ∧
    convertToVoice i o (some ⟨none, none⟩) = .ok
      { input := i, startTime := none, duration := none,
        outputOptions := ["-acodec libopus", "-b:a 48k", "-ac 1",
                          "-ar 48000", "-vn"],
        format := "ogg", output := o } := by
  refine ⟨rfl, ?_, rfl, ?_, rfl⟩
  · by_cases h : e - s ≤ 0 <;> simp [convertToVoice, h]
  · by_cases h : e ≤ 0 <;> simp [convertToVoice, h]

/-- C7: on every exit path of `processAudio` (over all combinations of
external success and failure) the trace contains an unlink of both the
input and the output temp path, and the entire result — trace and
outcome — is independent of whether either deletion succeeds, at the
pipeline level and at both handler levels. -/
theorem c7_cleanup_on_every_path (env : Env) (fileId : String)
    (filenameHint : Option String) (trimRange : Option TrimRange) :
    BotAction.unlink (inputPathFor env filenameHint) ∈
      (processAudio env fileId filenameHint trimRange).1 ∧
    BotAction.unlink (outputPathFor env) ∈
      (processAudio env fileId filenameHint trimRange).1 ∧
    (∀ b1 b2, processAudio
        { env with unlinkInputOk := b1, unlinkOutputOk := b2 }
        fileId filenameHint trimRange =
      processAudio env fileId filenameHint trimRange) ∧
    (∀ b1 b2 m, handleAudio
        { env with unlinkInputOk := b1, unlinkOutputOk := b2 } m =
      handleAudio env m) ∧
    (∀ b1 b2 m hasNext, handleDocument
        { env with unlinkInputOk := b1, unlinkOutputOk := b2 } m hasNext =
      handleDocument env m hasNext) := by
  refine ⟨?_, ?_, fun b1 b2 => rfl, fun b1 b2 m => rfl,
    fun b1 b2 m hn => rfl⟩
  · simp [processAudio]
  · simp [processAudio]

/-- C8: the parse result is a function of the leftmost match alone; with
two patterns present only the first decides the outcome, whether that
outcome is a value or the ordering error. -/
theorem c8_first_pattern_only :
    (∀ u : Option String, parseTimecodes u =
      (match u with
       | none => Except.ok none
       | some s => firstPatternResult (findTimecode none s.data))) ∧
    parseTimecodes (some "1:2 300:4000") = .ok (some ⟨1, 2⟩) ∧
    parseTimecodes (some "9:1 2:3") = .error TimecodeParseError.order := by
  refine ⟨?_, rfl, rfl⟩
  intro u
  cases u with
  | none => rfl
  | some s => exact parseTimecodes_some_eq s

/-- C9: the captures of any successful regular-expression match are
non-empty strings of at most four decimal digits, `Number` on them is
never NaN (so the NaN branch of `parseTimecodes` is unreachable for every
input), and the first capture's value is never negative (so the
`start < 0` test never causes a failure). -/
theorem c9_captures_always_digits (s g1 g2 : List Char)
    (h : findTimecode none s = some (g1, g2)) :
    (g1 ≠ [] ∧ g1.length ≤ 4 ∧ g1.all Char.isDigit = true ∧
     g2 ≠ [] ∧ g2.length ≤ 4 ∧ g2.all Char.isDigit = true) ∧
    jsNumber g1 = some ((digitsToNat g1 : Nat) : Int) ∧
    jsNumber g2 = some ((digitsToNat g2 : Nat) : Int) ∧
    (0 : Int) ≤ ((digitsToNat g1 : Nat) : Int) ∧
    (∀ u : Option String,
      parseTimecodes u ≠ .error TimecodeParseError.nan) := by
  obtain ⟨hg1, hl1, hg1d, hg2, hl2, hg2d⟩ := findTimecode_groups h
  exact ⟨⟨hg1, hl1, hg1d, hg2, hl2, hg2d⟩,
    jsNumber_digits hg1 hg1d, jsNumber_digits hg2 hg2d,
    Int.natCast_nonneg _, parseTimecodes_never_nan⟩

/-- Witness for C9 on the match inside `"0:40"`. -/
theorem c9_witness :
    ((['0'] ≠ [] ∧ List.length ['0'] ≤ 4 ∧
      List.all ['0'] Char.isDigit = true ∧
      ['4', '0'] ≠ [] ∧ List.length ['4', '0'] ≤ 4 ∧
      List.all ['4', '0'] Char.isDigit = true) ∧
     jsNumber ['0'] = some ((digitsToNat ['0'] : Nat) : Int) ∧
     jsNumber ['4', '0'] = some ((digitsToNat ['4', '0'] : Nat) : Int) ∧
     (0 : Int) ≤ ((digitsToNat ['0'] : Nat) : Int) ∧
     (∀ u : Option String,
       parseTimecodes u ≠ .error TimecodeParseError.nan)) :=
  c9_captures_always_digits ['0', ':', '4', '0'] ['0'] ['4', '0'] rfl

/-- C10: with no trim range, `convertToVoice` of src/src/bot.js issues
exactly the transcoder invocation of the older copy's `convertToVoice`
(src/unnamed/part_000): same input, options, format and output path. -/
theorem c10_untrimmed_agrees_with_legacy (i o : String) :
    convertToVoice i o none = .ok (legacyConvertToVoice i o) := rfl
